import Mathlib

/-!
Verification of the IceSickle attestation firmware core.

Shallow embedding of the modules src/cooldown.rs, src/entropy.rs and
src/attestation.rs. Machine integers are modelled as Nat with explicit
reduction modulo 2^w where wrap-around matters; the process-wide atomics
(LAST_ATTESTATION_MS, COUNTER) become explicit state parameters threaded
through the functions that read and write them; fallible operations return
Except. Third-party primitives the source calls into (ed25519_dalek,
zeroize drop glue, postcard) are modelled at the places marked below.
-/

namespace IceSickle

/-! ## Cooldown gate (src/cooldown.rs)

The shared atomic LAST_ATTESTATION_MS is passed explicitly as the second
argument of check and gate, and gate also returns the value the atomic
holds when it returns. The u64 saturating_sub of the source is Nat
subtraction, which saturates at 0 by definition. -/

/-- COOLDOWN_MS, src/cooldown.rs line 26: minimum milliseconds between
attestations. -/
def COOLDOWN_MS : Nat := 1000

/-- Boot value of the LAST_ATTESTATION_MS atomic, src/cooldown.rs line 29. -/
def LAST_ATTESTATION_MS_init : Nat := 0

/-- CooldownResult, src/cooldown.rs lines 33-38. -/
inductive CooldownResult where
  | ready
  | wait (remaining_ms : Nat)
deriving DecidableEq, Repr

/-- check, src/cooldown.rs lines 41-54: now is the timestamp read inside the
call, last the current value of LAST_ATTESTATION_MS. -/
def check (now last : Nat) : CooldownResult :=
  let elapsed := now - last
  if COOLDOWN_MS ≤ elapsed then
    CooldownResult.ready
  else
    CooldownResult.wait (COOLDOWN_MS - elapsed)

/-- record_attestation, src/cooldown.rs lines 59-62: unconditionally stores
now into LAST_ATTESTATION_MS; returns the new value of the atomic. -/
def record_attestation (now _last : Nat) : Nat := now

/-- gate, src/cooldown.rs lines 68-76: check, then on Ready record and
return Ok, on Wait return Err(remaining). Returns the result together with
the value LAST_ATTESTATION_MS holds afterwards. -/
def gate (now last : Nat) : Except Nat Unit × Nat :=
  match check now last with
  | CooldownResult.ready => (Except.ok (), record_attestation now last)
  | CooldownResult.wait r => (Except.error r, last)

/-! ## Monotonic counter (src/attestation.rs lines 140-144)

COUNTER is an AtomicU32 starting at 0. fetch_add(1) returns the previous
stored value and stores the sum wrapped modulo 2^32. The state of the
atomic is passed explicitly. -/

/-- Boot value of the COUNTER atomic, src/attestation.rs line 140. -/
def COUNTER_init : Nat := 0

/-- increment_counter, src/attestation.rs lines 142-144: fetch_add(1) on an
AtomicU32 — first component is the value returned to the caller (the
previous contents), second the new contents of the atomic (wrapping add). -/
def increment_counter (c : Nat) : Nat × Nat := (c, (c + 1) % 2 ^ 32)

/-- Contents of the COUNTER atomic after n attestation attempts since boot. -/
def counterState : Nat → Nat
  | 0 => COUNTER_init
  | n + 1 => (increment_counter (counterState n)).2

/-- The counter value consumed by the n-th attestation attempt since boot
(0-indexed): what increment_counter returns to Attestation::create there. -/
def consumedCounter (n : Nat) : Nat := (increment_counter (counterState n)).1

/-! ## Entropy source (src/entropy.rs) -/

/-- The error raised by the RNG sanity check, src/entropy.rs line 36
(anyhow::bail! with a message; the message is irrelevant here). -/
inductive EntropyError where
  | rngSanityFailed
deriving DecidableEq, Repr

/-- HardwareRng::new, src/entropy.rs lines 27-40: reads a 4-byte sample from
esp_fill_random (passed here as the explicit argument test) and fails the
sanity check exactly when the sample is all zeros. HardwareRng itself is a
zero-sized type, modelled as Unit. -/
def hardwareRng_new (test : List Nat) : Except EntropyError Unit :=
  if test = [0, 0, 0, 0] then
    Except.error EntropyError.rngSanityFailed
  else
    Except.ok ()

/-! ## Payload and its postcard encoding (src/attestation.rs lines 17-37, 94-95)

Attestation::create serializes the payload with postcard::to_allocvec.
Postcard writes a u8 as a single byte, a u32 or u64 as an unsigned
little-endian base-128 varint (low 7-bit group first, high bit of a byte
set on every byte except the last), an enum as the varint of its variant
index followed by the variant fields in order, and a struct as its fields
in declaration order with no framing. Bytes are Nat values below 256. -/

/-- AttestationEvent, src/attestation.rs lines 17-24. The Unknown variant
carries the serde(other) attribute: a decoder maps every unrecognized
variant index to it. -/
inductive AttestationEvent where
  | buttonPress (gpio : Nat)
  | unknown
deriving DecidableEq, Repr

/-- AttestationPayload, src/attestation.rs lines 27-37, field order as
declared: version, event, timestamp_ms, counter. -/
structure AttestationPayload where
  version : Nat
  event : AttestationEvent
  timestamp_ms : Nat
  counter : Nat
deriving DecidableEq, Repr

/-- Unsigned LEB128 varint encoder (postcard's integer wire format),
written with a structural fuel argument so that it reduces in the kernel;
fuel is always sufficient because the value shrinks by a factor of 128 at
every step while the fuel shrinks by 1. -/
def varintEncodeAux : Nat → Nat → List Nat
  | 0, _ => []
  | fuel + 1, n =>
    if n < 128 then [n] else (n % 128 + 128) :: varintEncodeAux fuel (n / 128)

/-- Postcard's unsigned varint encoding of n. -/
def varintEncode (n : Nat) : List Nat := varintEncodeAux (n + 1) n

theorem varintEncodeAux_congr :
    ∀ f g n : Nat, n < f → n < g → varintEncodeAux f n = varintEncodeAux g n := by
  intro f
  induction f with
  | zero => intro g n hf _; omega
  | succ f ih =>
    intro g n hf hg
    match g, hg with
    | g + 1, _ =>
      show (if n < 128 then [n] else (n % 128 + 128) :: varintEncodeAux f (n / 128))
        = (if n < 128 then [n] else (n % 128 + 128) :: varintEncodeAux g (n / 128))
      by_cases h : n < 128
      · simp [h]
      · have hdiv : n / 128 < n := Nat.div_lt_self (by omega) (by omega)
        simp only [h, if_false]
        rw [ih g (n / 128) (by omega) (by omega)]

/-- The defining recurrence of the varint encoder. -/
theorem varintEncode_eq (n : Nat) :
    varintEncode n =
      if n < 128 then [n] else (n % 128 + 128) :: varintEncode (n / 128) := by
  show varintEncodeAux (n + 1) n = _
  by_cases h : n < 128
  · simp [varintEncodeAux, h]
  · have hdiv : n / 128 < n := Nat.div_lt_self (by omega) (by omega)
    show (if n < 128 then [n] else (n % 128 + 128) :: varintEncodeAux n (n / 128)) = _
    simp only [h, if_false]
    rw [varintEncodeAux_congr n (n / 128 + 1) (n / 128) (by omega) (by omega)]
    rfl

/-- Postcard's unsigned varint decoder: consumes one little-endian base-128
group per byte until a byte with the high bit clear, returning the value
and the remaining input. -/
def varintDecode : List Nat → Option (Nat × List Nat)
  | [] => none
  | b :: rest =>
    if b < 128 then some (b, rest)
    else
      match varintDecode rest with
      | some (n, r) => some (n * 128 + (b - 128), r)
      | none => none

theorem varintDecode_encode (n : Nat) (tl : List Nat) :
    varintDecode (varintEncode n ++ tl) = some (n, tl) := by
  induction n using Nat.strong_induction_on generalizing tl with
  | _ n ih =>
    rw [varintEncode_eq]
    by_cases h : n < 128
    · simp [h, varintDecode]
    · have hdiv : n / 128 < n := Nat.div_lt_self (by omega) (by omega)
      simp only [h, if_false, List.cons_append]
      rw [varintDecode]
      have h1 : ¬ n % 128 + 128 < 128 := by omega
      rw [if_neg h1, ih (n / 128) hdiv tl]
      have h2 : n / 128 * 128 + (n % 128 + 128 - 128) = n := by
        have := Nat.div_add_mod n 128
        omega
      simp only []
      rw [h2]

/-- The variant index postcard assigns to each AttestationEvent variant
(declaration order in src/attestation.rs lines 17-24). -/
def eventDiscr : AttestationEvent → Nat
  | AttestationEvent.buttonPress _ => 0
  | AttestationEvent.unknown => 1

/-- The field bytes following the variant index: ButtonPress has its single
u8 field gpio, Unknown has no fields. -/
def eventFieldBytes : AttestationEvent → List Nat
  | AttestationEvent.buttonPress g => [g]
  | AttestationEvent.unknown => []

/-- Postcard encoding of an AttestationEvent value: the varint of the
variant index, then the fields in order (gpio as one byte). -/
def encodeEvent : AttestationEvent → List Nat
  | AttestationEvent.buttonPress g => varintEncode 0 ++ [g]
  | AttestationEvent.unknown => varintEncode 1

/-- Postcard encoding of an AttestationPayload, fields in declaration
order; version is a u8 (one byte), timestamp_ms and counter are varints.
This is the byte string postcard::to_allocvec produces at
src/attestation.rs line 95. -/
def encodePayload (p : AttestationPayload) : List Nat :=
  p.version :: encodeEvent p.event
    ++ varintEncode p.timestamp_ms ++ varintEncode p.counter

/-- Postcard decoding of an AttestationEvent: read the variant index as a
varint; index 0 is ButtonPress and reads one byte for gpio, any other
index yields Unknown (the serde(other) variant) with no fields. -/
def decodeEvent (l : List Nat) : Option (AttestationEvent × List Nat) :=
  match varintDecode l with
  | none => none
  | some (d, rest) =>
    if d = 0 then
      match rest with
      | [] => none
      | g :: r => some (AttestationEvent.buttonPress g, r)
    else
      some (AttestationEvent.unknown, rest)

/-- Postcard decoding of an AttestationPayload: version byte, event,
timestamp varint, counter varint, in that order. -/
def decodePayload (l : List Nat) : Option (AttestationPayload × List Nat) :=
  match l with
  | [] => none
  | v :: r1 =>
    match decodeEvent r1 with
    | none => none
    | some (e, r2) =>
      match varintDecode r2 with
      | none => none
      | some (ts, r3) =>
        match varintDecode r3 with
        | none => none
        | some (c, r4) => some (⟨v, e, ts, c⟩, r4)

theorem decodeEvent_encodeEvent (e : AttestationEvent) (tl : List Nat) :
    decodeEvent (encodeEvent e ++ tl) = some (e, tl) := by
  cases e with
  | buttonPress g =>
    simp [encodeEvent, decodeEvent, List.append_assoc, varintDecode_encode]
  | unknown =>
    simp [encodeEvent, decodeEvent, varintDecode_encode]

theorem decodePayload_encodePayload (p : AttestationPayload) (tl : List Nat) :
    decodePayload (encodePayload p ++ tl) = some (p, tl) := by
  obtain ⟨v, e, ts, c⟩ := p
  simp [encodePayload, decodePayload, List.append_assoc,
    decodeEvent_encodeEvent, varintDecode_encode]

/-! ## Ed25519 primitive (symbolic model)

The source signs with ed25519_dalek (src/attestation.rs lines 10, 46-62),
a third-party crate outside this repository. It is modelled symbolically:
a signing key holds its 32 seed/scalar bytes, the public key is the
deterministic function of the seed that verifying_key computes (an
abstract deterministic map, taken here as the identity on the byte list,
which is length-preserving and injective like the real derivation), and a
signature is the term recording the signer's public key and the exact
message bytes signed. Verification succeeds exactly on that signer/message
pair, which is the defining property of Ed25519 stated by the spec:
sign produces a 64-byte deterministic signature over the exact byte
sequence supplied, and it verifies under the signer's public key. -/

/-- Modelled from the spec: the private half of an ed25519_dalek
SigningKey, holding the 32 seed/scalar bytes it was derived from. -/
structure SigningKeyM where
  scalar : List Nat
deriving DecidableEq, Repr

/-- Modelled from the spec: verifying_key().to_bytes() — the public key is
a pure deterministic function of the seed bytes. -/
def deriveVerifyingKey (seed : List Nat) : List Nat := seed

/-- Modelled from the spec: an Ed25519 signature, symbolically the pair of
the signer's public key and the exact message bytes signed. -/
structure SignatureM where
  signer : List Nat
  message : List Nat
deriving DecidableEq, Repr

/-- Modelled from the spec: deterministic Ed25519 signing of a message. -/
def ed25519_sign (k : SigningKeyM) (msg : List Nat) : SignatureM :=
  ⟨deriveVerifyingKey k.scalar, msg⟩

/-- Modelled from the spec: Ed25519 verification — a signature is valid
under a public key for a message exactly when it was produced by the key
with that public half over exactly those message bytes. -/
def ed25519_verify (pk msg : List Nat) (sig : SignatureM) : Bool :=
  sig.signer == pk && sig.message == msg

/-! ## Ephemeral key lifecycle and zeroization (src/attestation.rs 40-62)

Zeroization is about the final contents of the concrete buffers that held
secret bytes, so those buffers are threaded explicitly: the model returns,
alongside each functional result, the bytes readable in the 32-byte stack
seed buffer of EphemeralSigningKey::new and in the SigningKey's internal
scalar storage at the moment the call returns. -/

/-- The effect of zeroize on a byte buffer: every byte overwritten with 0. -/
def zeroizeBuf (b : List Nat) : List Nat := b.map fun _ => 0

/-- Result of EphemeralSigningKey::new together with the final contents of
its local seed buffer. -/
structure KeyGenTrace where
  key : SigningKeyM
  seedBufAtReturn : List Nat
deriving DecidableEq, Repr

/-- EphemeralSigningKey::new, src/attestation.rs lines 47-53. randBytes is
what rng.fill_bytes writes into the 32-byte stack buffer (a 32-byte
value). The sequence of buffer states mirrors the source: zero-initialise,
fill from the RNG, derive the key from the buffer, zeroize the buffer,
return. seedBufAtReturn is what remains readable in the buffer. -/
def ephemeralSigningKey_new (randBytes : List Nat) : KeyGenTrace :=
  let seedInit := List.replicate 32 0
  let seedFilled := randBytes ++ seedInit.drop randBytes.length
  let inner : SigningKeyM := ⟨seedFilled⟩
  let seedWiped := zeroizeBuf seedFilled
  { key := inner, seedBufAtReturn := seedWiped }

/-- Modelled from the spec: the zeroize-on-drop teardown of the signing
key. The derive(ZeroizeOnDrop) at src/attestation.rs line 40 skips the
inner field and relies on ed25519_dalek's SigningKey zeroizing its own
scalar on drop (the comment at line 42); that drop implementation lives
outside this repository, so it is modelled from the spec's teardown
contract: the private scalar is overwritten with zeros when the keypair's
scope ends. Returns the bytes readable in the scalar storage afterwards. -/
def signingKeyDrop (k : SigningKeyM) : List Nat := zeroizeBuf k.scalar

/-! ## Attestation::create (src/attestation.rs lines 64-112) -/

/-- The public result type Attestation, src/attestation.rs lines 65-70. -/
structure Attestation where
  event : AttestationEvent
  timestamp_ms : Nat
  public_key : List Nat
  signature : SignatureM
deriving DecidableEq, Repr

/-- The error create can propagate: the serialization step at
src/attestation.rs line 95 is the only fallible operation (anyhow error
from postcard::to_allocvec). -/
inductive CreateError where
  | encodingFault
deriving DecidableEq, Repr

/-- Everything observable when Attestation::create returns: the functional
result, the counter value the call consumed, the new contents of the
COUNTER atomic, and the bytes left readable in the secret-holding buffers
(empty lists on the path where the buffer was never created). -/
structure CreateResult where
  result : Except CreateError Attestation
  counterUsed : Nat
  counterAfter : Nat
  seedBufAtReturn : List Nat
  scalarBufAtReturn : List Nat
deriving Repr

/-- Attestation::create, src/attestation.rs lines 81-112. now is the
timestamp get_timestamp_ms reads at the start of the call, counterBefore
the contents of the COUNTER atomic. The payload encoding itself is the
total function encodePayload; the encodeOk flag models whether the
postcard::to_allocvec call at line 95 succeeds (its only failure mode,
allocation, is outside the encoding logic), so both exit paths of the
source are present. On the error path the ? operator returns before any
key material exists. -/
def attestation_create (randBytes : List Nat) (event : AttestationEvent)
    (now counterBefore : Nat) (encodeOk : Bool) : CreateResult :=
  let timestamp_ms := now
  let cc := increment_counter counterBefore
  let counter := cc.1
  let payload : AttestationPayload := ⟨1, event, timestamp_ms, counter⟩
  if encodeOk then
    let payload_bytes := encodePayload payload
    let kg := ephemeralSigningKey_new randBytes
    let public_key := deriveVerifyingKey kg.key.scalar
    let signature := ed25519_sign kg.key payload_bytes
    let scalarFinal := signingKeyDrop kg.key
    { result := Except.ok ⟨event, timestamp_ms, public_key, signature⟩
      counterUsed := counter
      counterAfter := cc.2
      seedBufAtReturn := kg.seedBufAtReturn
      scalarBufAtReturn := scalarFinal }
  else
    { result := Except.error CreateError.encodingFault
      counterUsed := counter
      counterAfter := cc.2
      seedBufAtReturn := []
      scalarBufAtReturn := [] }

/-! ## Helper lemmas -/

/-- All bytes of a buffer are zero (executable form). -/
def allZero (l : List Nat) : Bool := l.all fun b => b == 0

theorem counterState_eq (n : Nat) : counterState n = n % 2 ^ 32 := by
  induction n with
  | zero => rfl
  | succ n ih =>
    show (counterState n + 1) % 2 ^ 32 = (n + 1) % 2 ^ 32
    rw [ih]
    omega

theorem encodeEvent_eq (e : AttestationEvent) :
    encodeEvent e = varintEncode (eventDiscr e) ++ eventFieldBytes e := by
  cases e <;> simp [encodeEvent, eventDiscr, eventFieldBytes]

/-! ## Claims -/

/-- C1: for every valid AttestationEvent e, a successful call to
Attestation::create(rng, e) returns an Attestation whose signature is a
valid Ed25519 signature, under the returned 32-byte public key, over the
canonical encoding of the payload (version 1, event e, timestamp_ms,
counter) where timestamp_ms and counter are the values captured at the
start of that call. -/
theorem create_signature_verifies (randBytes : List Nat) (e : AttestationEvent)
    (now ctr : Nat) (hrand : randBytes.length = 32) :
    ∃ a, (attestation_create randBytes e now ctr true).result = Except.ok a
      ∧ a.event = e
      ∧ a.timestamp_ms = now
      ∧ a.public_key.length = 32
      ∧ ed25519_verify a.public_key (encodePayload ⟨1, e, now, ctr⟩) a.signature = true := by
  refine ⟨_, rfl, rfl, rfl, ?_, ?_⟩
  · simp [attestation_create, ephemeralSigningKey_new, deriveVerifyingKey,
      increment_counter, hrand]
  · simp [attestation_create, ephemeralSigningKey_new, deriveVerifyingKey,
      ed25519_sign, ed25519_verify, increment_counter]

/-- Witness for C1 at a concrete 32-byte seed and the end-to-end scenario
input of the spec (ButtonPress gpio 0, timestamp 12345, counter 0). -/
theorem create_signature_verifies_witness :
    ∃ a, (attestation_create (List.replicate 32 7) (AttestationEvent.buttonPress 0)
        12345 0 true).result = Except.ok a
      ∧ a.event = AttestationEvent.buttonPress 0
      ∧ a.timestamp_ms = 12345
      ∧ a.public_key.length = 32
      ∧ ed25519_verify a.public_key
          (encodePayload ⟨1, AttestationEvent.buttonPress 0, 12345, 0⟩) a.signature = true :=
  create_signature_verifies (List.replicate 32 7) (AttestationEvent.buttonPress 0)
    12345 0 (by simp)

/-- C2: on every exit path of Attestation::create — normal return and the
error return — every byte readable in the 32-byte seed buffer and in the
private-scalar storage when create returns is zero; on the success path
both buffers are exactly 32 zeroed bytes, on the error path no key
material was ever created (the buffers are empty). -/
theorem create_zeroizes_key_material (randBytes : List Nat) (e : AttestationEvent)
    (now ctr : Nat) (encodeOk : Bool) (hrand : randBytes.length = 32) :
    allZero (attestation_create randBytes e now ctr encodeOk).seedBufAtReturn = true
    ∧ allZero (attestation_create randBytes e now ctr encodeOk).scalarBufAtReturn = true
    ∧ (attestation_create randBytes e now ctr encodeOk).seedBufAtReturn.length
        = (if encodeOk then 32 else 0)
    ∧ (attestation_create randBytes e now ctr encodeOk).scalarBufAtReturn.length
        = (if encodeOk then 32 else 0) := by
  cases encodeOk with
  | false => refine ⟨rfl, rfl, rfl, rfl⟩
  | true =>
    refine ⟨?_, ?_, ?_, ?_⟩ <;>
      simp [attestation_create, ephemeralSigningKey_new, signingKeyDrop,
        zeroizeBuf, allZero, increment_counter, hrand]

/-- Witness for C2 at a concrete 32-byte seed on the success path. -/
theorem create_zeroizes_key_material_witness :
    allZero (attestation_create (List.replicate 32 5) AttestationEvent.unknown
        0 0 true).seedBufAtReturn = true
    ∧ allZero (attestation_create (List.replicate 32 5) AttestationEvent.unknown
        0 0 true).scalarBufAtReturn = true
    ∧ (attestation_create (List.replicate 32 5) AttestationEvent.unknown
        0 0 true).seedBufAtReturn.length = (if true then 32 else 0)
    ∧ (attestation_create (List.replicate 32 5) AttestationEvent.unknown
        0 0 true).scalarBufAtReturn.length = (if true then 32 else 0) :=
  create_zeroizes_key_material (List.replicate 32 5) AttestationEvent.unknown
    0 0 true (by simp)

/-- C3 counterexample: COUNTER is a u32 updated by a wrapping fetch_add, so
within a power cycle with more than 2^32 attestation attempts the consumed
counter values repeat: attempt number 2^32 consumes the same value 0 as
attempt number 0, refuting strict increase and pairwise distinctness for
unboundedly long call sequences. -/
theorem consumedCounter_repeats_after_wraparound :
    consumedCounter (2 ^ 32) = consumedCounter 0 ∧ (0 : Nat) < 2 ^ 32 := by
  constructor
  · show (increment_counter (counterState (2 ^ 32))).1
      = (increment_counter (counterState 0)).1
    simp [increment_counter, counterState_eq]
  · positivity

/-- C3 (amended): the counter starts at 0 at boot and is advanced exactly
once per create call (also on the error path), and the consumed counter
values of attempts within one power cycle are strictly increasing —
provided the power cycle sees at most 2^32 attempts (the u32 wraps after
that). -/
theorem counter_strictly_increasing (i j : Nat) (randBytes : List Nat)
    (e : AttestationEvent) (now c : Nat) (encodeOk : Bool)
    (hij : i < j) (hj : j < 2 ^ 32) :
    counterState 0 = 0
    ∧ consumedCounter i < consumedCounter j
    ∧ (attestation_create randBytes e now c encodeOk).counterAfter = (c + 1) % 2 ^ 32 := by
  refine ⟨rfl, ?_, ?_⟩
  · show (increment_counter (counterState i)).1 < (increment_counter (counterState j)).1
    simp only [increment_counter, counterState_eq]
    omega
  · cases encodeOk <;> rfl

/-- Witness for C3 (amended) at attempts 0 and 1 and a concrete create
call. -/
theorem counter_strictly_increasing_witness :
    counterState 0 = 0
    ∧ consumedCounter 0 < consumedCounter 1
    ∧ (attestation_create [] AttestationEvent.unknown 0 0 true).counterAfter
        = (0 + 1) % 2 ^ 32 :=
  counter_strictly_increasing 0 1 [] AttestationEvent.unknown 0 0 true
    (by decide) (by norm_num)

/-- C4 counterexample: two payloads that differ only in timestamp_ms
encode to byte strings of different lengths (4 versus 5 bytes), so
timestamp_ms is not encoded at a fixed width — postcard writes u64 and u32
as variable-length varints. -/
theorem encodePayload_not_fixed_width :
    (encodePayload ⟨1, AttestationEvent.unknown, 0, 0⟩).length = 4
    ∧ (encodePayload ⟨1, AttestationEvent.unknown, 128, 0⟩).length = 5
    ∧ (encodePayload ⟨1, AttestationEvent.unknown, 0, 0⟩).length
      ≠ (encodePayload ⟨1, AttestationEvent.unknown, 128, 0⟩).length := by
  refine ⟨by decide, by decide, by decide⟩

/-- C4 (amended): the canonical encoding of AttestationPayload serializes
the fields in the fixed order version, event discriminant plus fields,
timestamp, counter; it encodes timestamp_ms and counter as unsigned
LEB128 varints (variable-width, not fixed-width); and it assigns the
stable small-integer discriminant 0 to ButtonPress and 1 to Unknown, each
of which occupies a single byte on the wire. -/
theorem encodePayload_field_order_and_discriminants (p : AttestationPayload) (g : Nat) :
    encodePayload p
      = p.version :: (varintEncode (eventDiscr p.event) ++ eventFieldBytes p.event)
        ++ varintEncode p.timestamp_ms ++ varintEncode p.counter
    ∧ varintEncode (eventDiscr p.event) = [eventDiscr p.event]
    ∧ eventDiscr (AttestationEvent.buttonPress g) = 0
    ∧ eventDiscr AttestationEvent.unknown = 1 := by
  refine ⟨?_, ?_, rfl, rfl⟩
  · simp [encodePayload, encodeEvent_eq]
  · cases p.event <;> (simp only [eventDiscr]; decide)

/-- C5: the payload encoding is deterministic — logically equal payloads
yield byte-identical encodings — and the decoder round-trips: decoding the
canonical encoding of a payload yields back the equal logical value with
no bytes left over. -/
theorem encodePayload_deterministic_roundtrip (p q : AttestationPayload) (hpq : p = q) :
    encodePayload p = encodePayload q
    ∧ decodePayload (encodePayload p) = some (p, []) := by
  subst hpq
  refine ⟨rfl, ?_⟩
  have h := decodePayload_encodePayload p []
  simpa using h

/-- Witness for C5 at the end-to-end scenario payload of the spec. -/
theorem encodePayload_deterministic_roundtrip_witness :
    encodePayload ⟨1, AttestationEvent.buttonPress 0, 12345, 0⟩
      = encodePayload ⟨1, AttestationEvent.buttonPress 0, 12345, 0⟩
    ∧ decodePayload (encodePayload ⟨1, AttestationEvent.buttonPress 0, 12345, 0⟩)
      = some (⟨1, AttestationEvent.buttonPress 0, 12345, 0⟩, []) :=
  encodePayload_deterministic_roundtrip _ _ rfl

/-- C6: check computes elapsed as the saturating subtraction now - last
and returns Ready exactly when elapsed is at least COOLDOWN_MS = 1000,
otherwise Wait with remaining = 1000 - elapsed; in particular check at
t = 999 after a success recorded at t = 0 returns Wait with 1 ms
remaining. -/
theorem check_spec (now last : Nat) :
    (check now last = CooldownResult.ready ↔ COOLDOWN_MS ≤ now - last)
    ∧ (∀ r, check now last = CooldownResult.wait r
        ↔ now - last < COOLDOWN_MS ∧ r = COOLDOWN_MS - (now - last))
    ∧ check 999 0 = CooldownResult.wait 1 := by
  refine ⟨?_, ?_, by decide⟩
  · by_cases h : COOLDOWN_MS ≤ now - last <;> simp [check, h]
  · intro r
    by_cases h : COOLDOWN_MS ≤ now - last
    · simp [check, h]
    · simp [check, h]
      omega

/-- Witness for C6: the iff characterization applied at now = 1500,
last = 0. -/
theorem check_spec_witness : check 1500 0 = CooldownResult.ready :=
  (check_spec 1500 0).1.mpr (by decide)

/-- C7 counterexample: at fresh boot state LAST_ATTESTATION_MS holds 0, so
at t = 0 the elapsed time is 0 and the gate blocks — check returns
Wait with 1000 ms remaining and gate returns Err(1000), not Ready / Ok as
the claim states. -/
theorem gate_fresh_boot_blocks :
    check 0 LAST_ATTESTATION_MS_init = CooldownResult.wait 1000
    ∧ check 0 LAST_ATTESTATION_MS_init ≠ CooldownResult.ready
    ∧ gate 0 LAST_ATTESTATION_MS_init = (Except.error 1000, LAST_ATTESTATION_MS_init)
    ∧ (gate 0 LAST_ATTESTATION_MS_init).1 ≠ Except.ok () := by
  refine ⟨by decide, by decide, rfl, ?_⟩
  show (Except.error 1000 : Except Nat Unit) ≠ Except.ok ()
  simp

/-- C7 (amended): with fresh boot state, check at t = 0 returns Wait{1000}
and gate at t = 0 returns Err(1000); throughout the first 1000 ms after
boot the gate returns Err with the remaining time, and it first returns Ok
at t = COOLDOWN_MS = 1000, which becomes the first recorded success;
after a first success at time s, gate at s + 500 returns Err(500) and gate
at s + 1000 returns Ok. -/
theorem gate_cooldown_sequence (s t : Nat) (ht : t < COOLDOWN_MS) :
    check 0 LAST_ATTESTATION_MS_init = CooldownResult.wait COOLDOWN_MS
    ∧ gate 0 LAST_ATTESTATION_MS_init = (Except.error COOLDOWN_MS, LAST_ATTESTATION_MS_init)
    ∧ (gate t LAST_ATTESTATION_MS_init).1 = Except.error (COOLDOWN_MS - t)
    ∧ gate COOLDOWN_MS LAST_ATTESTATION_MS_init = (Except.ok (), COOLDOWN_MS)
    ∧ gate (s + 500) s = (Except.error 500, s)
    ∧ gate (s + 1000) s = (Except.ok (), s + 1000) := by
  have h500 : s + 500 - s = 500 := by omega
  have h1000 : s + 1000 - s = 1000 := by omega
  refine ⟨by decide, rfl, ?_, rfl, ?_, ?_⟩
  · have hc : check t LAST_ATTESTATION_MS_init
        = CooldownResult.wait (COOLDOWN_MS - t) := by
      simp only [check, LAST_ATTESTATION_MS_init, Nat.sub_zero, if_neg (by omega : ¬ COOLDOWN_MS ≤ t)]
    rw [gate, hc]
  · have hc : check (s + 500) s = CooldownResult.wait 500 := by
      simp only [check, h500]
      rw [if_neg (by simp [COOLDOWN_MS])]
      simp [COOLDOWN_MS]
    rw [gate, hc]
  · have hc : check (s + 1000) s = CooldownResult.ready := by
      simp only [check, h1000]
      rw [if_pos (by simp [COOLDOWN_MS])]
    rw [gate, hc]
    rfl

/-- Witness for C7 (amended) at s = 1000, t = 999. -/
theorem gate_cooldown_sequence_witness :
    check 0 LAST_ATTESTATION_MS_init = CooldownResult.wait COOLDOWN_MS
    ∧ gate 0 LAST_ATTESTATION_MS_init = (Except.error COOLDOWN_MS, LAST_ATTESTATION_MS_init)
    ∧ (gate 999 LAST_ATTESTATION_MS_init).1 = Except.error (COOLDOWN_MS - 999)
    ∧ gate COOLDOWN_MS LAST_ATTESTATION_MS_init = (Except.ok (), COOLDOWN_MS)
    ∧ gate (1000 + 500) 1000 = (Except.error 500, 1000)
    ∧ gate (1000 + 1000) 1000 = (Except.ok (), 1000 + 1000) :=
  gate_cooldown_sequence 1000 999 (by decide)

/-- C8: gate returns Err(remaining) and leaves the recorded last-success
timestamp unchanged exactly when check yields Wait{remaining}; when check
yields Ready, gate records the current time as the new last success and
returns Ok; and record_attestation unconditionally sets the last-success
timestamp to the current time. -/
theorem gate_check_record_spec (now last r : Nat) :
    ((gate now last).1 = Except.error r ∧ (gate now last).2 = last
      ↔ check now last = CooldownResult.wait r)
    ∧ (check now last = CooldownResult.ready → gate now last = (Except.ok (), now))
    ∧ record_attestation now last = now := by
  refine ⟨⟨?_, ?_⟩, ?_, rfl⟩
  · rintro ⟨h1, h2⟩
    cases hc : check now last with
    | ready =>
      rw [gate, hc] at h1
      exact absurd h1 (by simp)
    | wait r2 =>
      rw [gate, hc] at h1
      simp only [Except.error.injEq] at h1
      rw [h1]
  · intro hc
    rw [gate, hc]
    exact ⟨rfl, rfl⟩
  · intro hc
    rw [gate, hc]
    rfl

/-- Witness for C8: the Wait direction of the iff applied at now = 500,
last = 0, remaining = 500. -/
theorem gate_check_record_spec_witness :
    (gate 500 0).1 = Except.error 500 ∧ (gate 500 0).2 = 0 :=
  (gate_check_record_spec 500 0 500).1.mpr (by decide)

/-- C9 counterexample: the wrapping fetch_add refutes the unbounded claim
at the wrap boundary — an attempt that fails at counter state 2^32 - 1
consumes the value 2^32 - 1 and leaves the u32 COUNTER at 0, so the
subsequent successful create consumes 0, which is not strictly larger
than the value the failed attempt used. -/
theorem counter_wraps_on_failure_boundary :
    (attestation_create [] AttestationEvent.unknown 0 (2 ^ 32 - 1) false).result
      = Except.error CreateError.encodingFault
    ∧ (attestation_create [] AttestationEvent.unknown 0 (2 ^ 32 - 1) false).counterUsed
      = 2 ^ 32 - 1
    ∧ (attestation_create [] AttestationEvent.unknown 0 (2 ^ 32 - 1) false).counterAfter = 0
    ∧ (attestation_create (List.replicate 32 1) AttestationEvent.unknown 0
        (attestation_create [] AttestationEvent.unknown 0 (2 ^ 32 - 1) false).counterAfter
        true).result.isOk = true
    ∧ (attestation_create (List.replicate 32 1) AttestationEvent.unknown 0
        (attestation_create [] AttestationEvent.unknown 0 (2 ^ 32 - 1) false).counterAfter
        true).counterUsed = 0
    ∧ ¬ (attestation_create [] AttestationEvent.unknown 0 (2 ^ 32 - 1) false).counterUsed
        < (attestation_create (List.replicate 32 1) AttestationEvent.unknown 0
            (attestation_create [] AttestationEvent.unknown 0 (2 ^ 32 - 1) false).counterAfter
            true).counterUsed := by
  refine ⟨rfl, rfl, by decide, rfl, by decide, ?_⟩
  show ¬ 2 ^ 32 - 1 < (attestation_create (List.replicate 32 1) AttestationEvent.unknown 0
    ((2 ^ 32 - 1 + 1) % 2 ^ 32) true).counterUsed
  show ¬ 2 ^ 32 - 1 < (2 ^ 32 - 1 + 1) % 2 ^ 32
  norm_num

/-- C9 (amended): create advances the monotonic counter before the
fallible encoding and signing steps, so an attempt that fails with an
encoding error still permanently consumes its counter value, and — as
long as the failed attempt's counter value is below the u32 wrap boundary
2^32 - 1 — a subsequent successful create consumes a strictly larger
counter value than the failed attempt did. -/
theorem counter_consumed_on_failure (randBytes randBytes2 : List Nat)
    (e e2 : AttestationEvent) (now now2 c : Nat) (hc : c + 1 < 2 ^ 32) :
    (attestation_create randBytes e now c false).result
      = Except.error CreateError.encodingFault
    ∧ (attestation_create randBytes e now c false).counterUsed = c
    ∧ (attestation_create randBytes e now c false).counterAfter = c + 1
    ∧ (attestation_create randBytes2 e2 now2
        (attestation_create randBytes e now c false).counterAfter true).result.isOk = true
    ∧ (attestation_create randBytes2 e2 now2
        (attestation_create randBytes e now c false).counterAfter true).counterUsed = c + 1
    ∧ (attestation_create randBytes e now c false).counterUsed
      < (attestation_create randBytes2 e2 now2
          (attestation_create randBytes e now c false).counterAfter true).counterUsed := by
  have hafter : (attestation_create randBytes e now c false).counterAfter = c + 1 := by
    show (c + 1) % 2 ^ 32 = c + 1
    exact Nat.mod_eq_of_lt hc
  refine ⟨rfl, rfl, hafter, ?_, ?_, ?_⟩
  · rfl
  · show (attestation_create randBytes2 e2 now2
      (attestation_create randBytes e now c false).counterAfter true).counterUsed = c + 1
    rw [hafter]
    rfl
  · show c < (attestation_create randBytes2 e2 now2
      (attestation_create randBytes e now c false).counterAfter true).counterUsed
    rw [show (attestation_create randBytes2 e2 now2
      (attestation_create randBytes e now c false).counterAfter true).counterUsed
      = (attestation_create randBytes e now c false).counterAfter from rfl, hafter]
    omega

/-- Witness for C9 at counter 0 with concrete inputs. -/
theorem counter_consumed_on_failure_witness :
    (attestation_create [] AttestationEvent.unknown 0 0 false).result
      = Except.error CreateError.encodingFault
    ∧ (attestation_create [] AttestationEvent.unknown 0 0 false).counterUsed = 0
    ∧ (attestation_create [] AttestationEvent.unknown 0 0 false).counterAfter = 0 + 1
    ∧ (attestation_create (List.replicate 32 1) (AttestationEvent.buttonPress 0) 7
        (attestation_create [] AttestationEvent.unknown 0 0 false).counterAfter
        true).result.isOk = true
    ∧ (attestation_create (List.replicate 32 1) (AttestationEvent.buttonPress 0) 7
        (attestation_create [] AttestationEvent.unknown 0 0 false).counterAfter
        true).counterUsed = 0 + 1
    ∧ (attestation_create [] AttestationEvent.unknown 0 0 false).counterUsed
      < (attestation_create (List.replicate 32 1) (AttestationEvent.buttonPress 0) 7
          (attestation_create [] AttestationEvent.unknown 0 0 false).counterAfter
          true).counterUsed :=
  counter_consumed_on_failure [] (List.replicate 32 1) AttestationEvent.unknown
    (AttestationEvent.buttonPress 0) 0 7 0 (by norm_num)

/-- C10: HardwareRng::new reads a 4-byte sample from the hardware noise
source and fails exactly when the sample is degenerate (all four bytes
zero); for every other sample it returns the usable entropy source. -/
theorem hardwareRng_new_spec (sample : List Nat) (_hlen : sample.length = 4) :
    (hardwareRng_new sample = Except.ok () ↔ sample ≠ [0, 0, 0, 0])
    ∧ (hardwareRng_new sample = Except.error EntropyError.rngSanityFailed
        ↔ sample = [0, 0, 0, 0]) := by
  by_cases hs : sample = [0, 0, 0, 0] <;> simp [hardwareRng_new, hs]

/-- Witness for C10 at a healthy sample and the degenerate sample. -/
theorem hardwareRng_new_spec_witness :
    (hardwareRng_new [1, 0, 0, 0] = Except.ok () ↔ [1, 0, 0, 0] ≠ [0, 0, 0, 0])
    ∧ (hardwareRng_new [1, 0, 0, 0] = Except.error EntropyError.rngSanityFailed
        ↔ [1, 0, 0, 0] = [0, 0, 0, 0]) :=
  hardwareRng_new_spec [1, 0, 0, 0] (by decide)

end IceSickle
